import Mathlib

/-!
Shallow embedding of `src/jsonToIff.py`, a JSON → fixed-width ("IFF") file
converter, together with proofs of the specified properties of its field
formatter, record builder and file emitter.

Python strings are embedded as `List Char`.  Python floating-point values are
abstracted by their textual representation (the string `str(float_value))`):
every numeric scalar carries the text that `str()` and `str(float(·))` would
produce for it, since all the formatting logic of the program operates on that
text and never on the numeric value itself.
-/

namespace JsonToIff

/-- A Python string, embedded as a list of characters. -/
abbrev PyStr := List Char

/-- The exceptions that can arise inside `format_number`:
`ValueError` (raised with a message, and caught by the `except ValueError`
handlers in the program) and `TypeError` (raised by `float(value)` on a
non-string non-numeric argument, and caught by no handler in the program). -/
inductive PyErr where
  | valueError (msg : PyStr)
  | typeError
deriving DecidableEq, Repr

/-- A scalar JSON value as seen by the formatter.  `vnone` is Python `None`
(JSON `null`).  `vstr s asFloat` is a Python string `s`; `asFloat` is the
textual representation of `float(s)` when that conversion succeeds, and `none`
when `float(s)` raises `ValueError`.  `vnum strRepr floatRepr` is a Python
number (`int`, `float` or `bool`): `strRepr` is `str(v)` and `floatRepr` is
`str(float(v))`.  This matches the data model's Record values
(string, number, or absent/null). -/
inductive PyValue where
  | vnone
  | vstr (s : PyStr) (asFloat : Option PyStr)
  | vnum (strRepr : PyStr) (floatRepr : PyStr)
deriving DecidableEq, Repr

/-- Python `str(value)`: `str(None) = "None"`, a string is itself, a number
renders as its textual representation. -/
def pyStr : PyValue → PyStr
  | .vnone => "None".data
  | .vstr s _ => s
  | .vnum r _ => r

/-- The test `value == "" or value is None` on line 44 of the source. -/
def isBlank : PyValue → Bool
  | .vnone => true
  | .vstr s _ => s.isEmpty
  | .vnum _ _ => false

/-- Python `str(float(value))`: `TypeError` on `None`, `ValueError` on a
string that does not parse as a float, otherwise the float's textual
representation. -/
def pyFloatRepr : PyValue → Except PyErr PyStr
  | .vnone => .error .typeError
  | .vstr s none => .error (.valueError ("could not convert string to float: ".data ++ s))
  | .vstr _ (some r) => .ok r
  | .vnum _ r => .ok r

/-- Python `s.ljust(n)`: right-pad with spaces up to length `n` (no-op when
`s` is already at least that long). -/
def ljust (s : PyStr) (n : Nat) : PyStr :=
  s ++ List.replicate (n - s.length) ' '

/-- Insert a comma after every third character of a reversed digit string:
the recursive core of thousands grouping. -/
def commaRev : PyStr → PyStr
  | a :: b :: c :: d :: rest => a :: b :: c :: ',' :: commaRev (d :: rest)
  | l => l

/-- Group a digit string (most significant digit first) in threes from the
right with commas. -/
def group3 (ds : PyStr) : PyStr :=
  (commaRev ds.reverse).reverse

/-- Python `f"{n:,}"` for an integer `n`: optional minus sign, then the
decimal digits grouped in threes with commas. -/
def commaFmt (n : Int) : PyStr :=
  (if n < 0 then ['-'] else []) ++ group3 (Nat.toDigits 10 n.natAbs)

/-- The numeric value of a non-empty all-digit string, `none` otherwise. -/
def digitsVal? (s : PyStr) : Option Nat :=
  if s ≠ [] ∧ s.all (·.isDigit) then
    some (s.foldl (fun a c => 10 * a + (c.toNat - '0'.toNat)) 0)
  else none

/-- Python `int(s)` on the strings this program feeds it: an optional sign
followed by at least one digit; `ValueError` (here `none`) otherwise. -/
def pyInt? : PyStr → Option Int
  | '-' :: rest => (digitsVal? rest).map (fun n => -(n : Int))
  | '+' :: rest => (digitsVal? rest).map (fun n => (n : Int))
  | s => (digitsVal? s).map (fun n => (n : Int))

/-- Python `integer_part, decimal_part = r.split('.')`: succeeds exactly when
`r` contains a single dot, yielding the parts before and after it; any other
dot count makes the tuple unpacking raise `ValueError` (here `none`). -/
def splitDot (r : PyStr) : Option (PyStr × PyStr) :=
  if r.count '.' = 1 then
    some (r.takeWhile (· ≠ '.'), (r.dropWhile (· ≠ '.')).tail)
  else none

/-- `format_number(value, length)` (source lines 43–54).  Blank values give
`length` spaces.  Otherwise the float representation of the value is split at
its dot, the integer part is re-parsed and comma-grouped, and the parts are
rejoined; a result longer than `length` raises.  Every `ValueError` raised in
the `try` block (float conversion, unpacking, `int` parse, length check) is
caught by the `except ValueError` on line 53 and re-raised as
`"Value is not a number: {value}"`; a `TypeError` propagates uncaught. -/
def format_number (value : PyValue) (length : Nat) : Except PyErr PyStr :=
  if isBlank value then .ok (List.replicate length ' ')
  else
    match pyFloatRepr value with
    | .error .typeError => .error .typeError
    | .error (.valueError _) =>
        .error (.valueError ("Value is not a number: ".data ++ pyStr value))
    | .ok r =>
      match splitDot r with
      | none => .error (.valueError ("Value is not a number: ".data ++ pyStr value))
      | some (integer_part, decimal_part) =>
        match pyInt? integer_part with
        | none => .error (.valueError ("Value is not a number: ".data ++ pyStr value))
        | some i =>
          let formatted_number := commaFmt i ++ '.' :: decimal_part
          if formatted_number.length > length then
            .error (.valueError ("Value is not a number: ".data ++ pyStr value))
          else .ok (ljust formatted_number length)

/-- `format_field(value, field_type, length)` (source lines 57–62): dispatch
on the type tag; anything other than `"Number"` is treated as a string and
truncated/padded, which never raises. -/
def format_field (value : PyValue) (field_type : String) (length : Nat) :
    Except PyErr PyStr :=
  if field_type = "Number" then format_number value length
  else .ok (ljust ((pyStr value).take length) length)

/-- One schema row `(position, field_name, field_type, length)` as loaded by
`read_metadata`. -/
structure FieldSpec where
  position : Int
  field_name : String
  field_type : String
  length : Nat
deriving DecidableEq, Repr

/-- A log record emitted through `logging.warning` / `logging.error`. -/
inductive LogEvent where
  | warning (msg : PyStr)
  | error (msg : PyStr)
deriving DecidableEq, Repr

/-- A JSON object is an association list from key to scalar value. -/
abbrev JsonObj := List (String × PyValue)

/-- `item.get(field_name, "")` (source line 78): the stored value, or the
empty Python string when the key is absent. -/
def getValue (item : JsonObj) (field_name : String) : PyValue :=
  (item.lookup field_name).getD (.vstr [] none)

/-- The `try/except ValueError` around `format_field` in `process_json`
(source lines 79–83): on `ValueError` the field becomes `length` spaces and
the error is logged; a `TypeError` is not caught and propagates. -/
def formatFieldLogged (value : PyValue) (field_type : String) (length : Nat) :
    Except PyErr (PyStr × List LogEvent) :=
  match format_field value field_type length with
  | .ok s => .ok (s, [])
  | .error (.valueError msg) =>
      .ok (List.replicate length ' ',
           [.error ("Error formatting field: ".data ++ msg)])
  | .error .typeError => .error .typeError

/-- `sorted(metadata, key=lambda x: x[0])` (source line 77): a stable sort of
the schema rows by position. -/
def sortMetadata (metadata : List FieldSpec) : List FieldSpec :=
  metadata.mergeSort (fun a b => a.position ≤ b.position)

/-- The field loop of `process_json` over an already-sorted schema list:
formatted strings are collected in order, log events accumulate. -/
def buildFields (item : JsonObj) : List FieldSpec →
    Except PyErr (List PyStr × List LogEvent)
  | [] => .ok ([], [])
  | fs :: rest =>
    match formatFieldLogged (getValue item fs.field_name) fs.field_type fs.length with
    | .error e => .error e
    | .ok (s, logs₁) =>
      match buildFields item rest with
      | .error e => .error e
      | .ok (ss, logs₂) => .ok (s :: ss, logs₁ ++ logs₂)

/-- One record: sort the schema, format every field, join with `''.flatten`
(source lines 76–85). -/
def buildLine (item : JsonObj) (metadata : List FieldSpec) :
    Except PyErr (PyStr × List LogEvent) :=
  match buildFields item (sortMetadata metadata) with
  | .error e => .error e
  | .ok (ss, logs) => .ok (ss.flatten, logs)

/-- A top-level JSON array element: either an object (a dict) or something
else, carried with its textual representation for the warning message. -/
inductive JsonItem where
  | obj (fields : JsonObj)
  | other (srepr : PyStr)
deriving DecidableEq, Repr

/-- The top-level JSON document: a list, or a single non-list value. -/
inductive JsonTop where
  | arr (items : List JsonItem)
  | single (item : JsonItem)
deriving DecidableEq, Repr

/-- `if not isinstance(json_data, list): json_data = [json_data]`
(source lines 68–69). -/
def asItemList : JsonTop → List JsonItem
  | .arr l => l
  | .single j => [j]

/-- The item loop of `process_json` (source lines 71–86): skip non-dict items
with a warning, build one line per dict, propagate uncaught exceptions. -/
def processItems : List JsonItem → List FieldSpec →
    Except PyErr (List PyStr × List LogEvent)
  | [], _ => .ok ([], [])
  | .other r :: rest, metadata =>
    match processItems rest metadata with
    | .error e => .error e
    | .ok (ls, logs) =>
        .ok (ls, .warning ("Skipping item because it is not a dictionary: ".data ++ r) :: logs)
  | .obj m :: rest, metadata =>
    match buildLine m metadata with
    | .error e => .error e
    | .ok (line, logs₁) =>
      match processItems rest metadata with
      | .error e => .error e
      | .ok (ls, logs₂) => .ok (line :: ls, logs₁ ++ logs₂)

/-- `process_json(json_data, metadata)` (source lines 65–87). -/
def process_json (json_data : JsonTop) (metadata : List FieldSpec) :
    Except PyErr (List PyStr × List LogEvent) :=
  processItems (asItemList json_data) metadata

/-- Python `max(xs)` for a non-empty list of naturals, as used on line 109
(`max(data_row_lengths) if data_row_lengths else 0`). -/
def pyListMax : List Nat → Nat
  | [] => 0
  | x :: xs => xs.foldl max x

/-- `max_data_row_length` (source lines 108–109). -/
def max_data_row_length (all_iff_lines : List PyStr) : Nat :=
  pyListMax (all_iff_lines.map List.length)

/-- `max_row_length` (source line 110). -/
def max_row_length (all_iff_lines : List PyStr) (source_file_name : PyStr) : Nat :=
  max (max_data_row_length all_iff_lines) (source_file_name.length + 6)

/-- Python `f"{n:06}"` for a natural number: the decimal digits, left-padded
with zeros to a minimum width of six. -/
def zfill6 (n : Nat) : PyStr :=
  List.replicate (6 - (Nat.toDigits 10 n).length) '0' ++ Nat.toDigits 10 n

/-- `header_line` (source line 112). -/
def header_line (all_iff_lines : List PyStr) (source_file_name : PyStr) : PyStr :=
  ljust (zfill6 (max_row_length all_iff_lines source_file_name) ++ source_file_name)
        (max_row_length all_iff_lines source_file_name)

/-- The bytes written to the primary IFF file (source lines 121–124): the
header, then every data line padded to the uniform row width. -/
def primaryContent (all_iff_lines : List PyStr) (source_file_name : PyStr) : PyStr :=
  header_line all_iff_lines source_file_name ++
    (all_iff_lines.map
      (fun line => ljust line (max_row_length all_iff_lines source_file_name))).flatten

/-- The bytes written to the backup file (source lines 131–133): the padded
header, then `writelines` of the data lines — with no per-line padding. -/
def backupContent (all_iff_lines : List PyStr) (source_file_name : PyStr) : PyStr :=
  header_line all_iff_lines source_file_name ++ all_iff_lines.flatten

/-- The string a field contributes to its line: the formatted value, or
`length` spaces when formatting raised a `ValueError`. -/
def fieldOutput (item : JsonObj) (fs : FieldSpec) : PyStr :=
  match format_field (getValue item fs.field_name) fs.field_type fs.length with
  | .ok s => s
  | .error _ => List.replicate fs.length ' '

/-- The log events a single field produces. -/
def fieldLogs (item : JsonObj) (fs : FieldSpec) : List LogEvent :=
  match format_field (getValue item fs.field_name) fs.field_type fs.length with
  | .ok _ => []
  | .error (.valueError msg) => [.error ("Error formatting field: ".data ++ msg)]
  | .error .typeError => []

/-- The line an object item yields: each sorted field's contribution, joined. -/
def lineOf (item : JsonObj) (metadata : List FieldSpec) : PyStr :=
  ((sortMetadata metadata).map (fieldOutput item)).flatten

/-- The line an array element yields, if any: objects yield their line,
non-objects yield nothing. -/
def itemLine (metadata : List FieldSpec) : JsonItem → Option PyStr
  | .obj m => some (lineOf m metadata)
  | .other _ => none

/-- The log events an array element yields: a warning for a non-object,
the per-field error logs for an object. -/
def itemLogs (metadata : List FieldSpec) : JsonItem → List LogEvent
  | .obj m => ((sortMetadata metadata).map (fieldLogs m)).flatten
  | .other r => [.warning ("Skipping item because it is not a dictionary: ".data ++ r)]

/-! ## Basic lemmas about the formatter -/

theorem ljust_length (s : PyStr) (n : Nat) : (ljust s n).length = max s.length n := by
  simp only [ljust, List.length_append, List.length_replicate]
  omega

theorem ljust_length_of_le {s : PyStr} {n : Nat} (h : s.length ≤ n) :
    (ljust s n).length = n := by
  rw [ljust_length]; omega

theorem ljust_nil (n : Nat) : ljust [] n = List.replicate n ' ' := by
  simp [ljust]

/-- Whenever `format_number` succeeds, its output has exactly the declared
length. -/
theorem format_number_ok_length {v : PyValue} {L : Nat} {s : PyStr}
    (h : format_number v L = .ok s) : s.length = L := by
  unfold format_number at h
  split at h
  · simp only [Except.ok.injEq] at h
    subst h; simp
  · split at h
    · exact absurd h (by simp)
    · exact absurd h (by simp)
    · split at h
      · exact absurd h (by simp)
      · split at h
        · exact absurd h (by simp)
        · dsimp only at h
          split at h
          · exact absurd h (by simp)
          · simp only [Except.ok.injEq] at h
            subst h
            rename_i hlen
            exact ljust_length_of_le (by omega)

/-- Whenever `format_field` succeeds, its output has exactly the declared
length. -/
theorem format_field_ok_length {v : PyValue} {ft : String} {L : Nat} {s : PyStr}
    (h : format_field v ft L = .ok s) : s.length = L := by
  unfold format_field at h
  split at h
  · exact format_number_ok_length h
  · simp only [Except.ok.injEq] at h
    subst h
    rw [ljust_length, List.length_take]
    omega

/-- Every error `format_number` lets escape is the re-raised `ValueError` of
line 54; in particular the uncaught `TypeError` of `float(None)` is
unreachable because `None` is filtered out as blank on line 44. -/
theorem format_number_error_shape {v : PyValue} {L : Nat} {e : PyErr}
    (h : format_number v L = .error e) :
    e = .valueError ("Value is not a number: ".data ++ pyStr v) := by
  unfold format_number at h
  split at h
  · exact absurd h (by simp)
  · rename_i hblank
    cases v with
    | vnone => simp [isBlank] at hblank
    | vstr s af =>
      cases af with
      | none =>
        simp only [pyFloatRepr, Except.error.injEq] at h
        exact h.symm
      | some r =>
        simp only [pyFloatRepr] at h
        split at h
        · simp only [Except.error.injEq] at h; exact h.symm
        · split at h
          · simp only [Except.error.injEq] at h; exact h.symm
          · split at h
            · simp only [Except.error.injEq] at h; exact h.symm
            · exact absurd h (by simp)
    | vnum rs rf =>
      simp only [pyFloatRepr] at h
      split at h
      · simp only [Except.error.injEq] at h; exact h.symm
      · split at h
        · simp only [Except.error.injEq] at h; exact h.symm
        · split at h
          · simp only [Except.error.injEq] at h; exact h.symm
          · exact absurd h (by simp)

/-- Every error `format_field` lets escape comes from the `Number` branch and
is the `ValueError` of line 54. -/
theorem format_field_error_shape {v : PyValue} {ft : String} {L : Nat} {e : PyErr}
    (h : format_field v ft L = .error e) :
    ft = "Number" ∧ e = .valueError ("Value is not a number: ".data ++ pyStr v) := by
  unfold format_field at h
  split at h
  · rename_i hft
    exact ⟨hft, format_number_error_shape h⟩
  · exact absurd h (by simp)

/-! ## The record builder never aborts and has an explicit shape -/

/-- The guarded formatting step always succeeds: the only uncaught exception,
`TypeError`, is unreachable, and the `ValueError` recovery produces the pair
described by `fieldOutput` and `fieldLogs`. -/
theorem formatFieldLogged_eq (item : JsonObj) (fs : FieldSpec) :
    formatFieldLogged (getValue item fs.field_name) fs.field_type fs.length =
      .ok (fieldOutput item fs, fieldLogs item fs) := by
  unfold formatFieldLogged fieldOutput fieldLogs
  cases hf : format_field (getValue item fs.field_name) fs.field_type fs.length with
  | ok s => rfl
  | error e =>
    obtain ⟨-, he⟩ := format_field_error_shape hf
    subst he
    rfl

/-- Each field's contribution to a line has exactly the declared length,
whether formatting succeeded or was recovered with blanks. -/
theorem fieldOutput_length (item : JsonObj) (fs : FieldSpec) :
    (fieldOutput item fs).length = fs.length := by
  unfold fieldOutput
  cases hf : format_field (getValue item fs.field_name) fs.field_type fs.length with
  | ok s => exact format_field_ok_length hf
  | error e => simp

theorem buildFields_eq (item : JsonObj) (l : List FieldSpec) :
    buildFields item l = .ok (l.map (fieldOutput item), (l.map (fieldLogs item)).flatten) := by
  induction l with
  | nil => rfl
  | cons fs rest ih =>
    unfold buildFields
    rw [formatFieldLogged_eq, ih]
    simp

/-- `buildLine` always succeeds, with the line and log list given by the
per-field functions over the stably sorted schema. -/
theorem buildLine_eq (item : JsonObj) (metadata : List FieldSpec) :
    buildLine item metadata =
      .ok (lineOf item metadata, ((sortMetadata metadata).map (fieldLogs item)).flatten) := by
  unfold buildLine lineOf
  rw [buildFields_eq]

/-- The item loop always succeeds: lines are the object items' lines in input
order, logs are each item's log events in input order. -/
theorem processItems_eq (items : List JsonItem) (metadata : List FieldSpec) :
    processItems items metadata =
      .ok (items.filterMap (itemLine metadata), (items.map (itemLogs metadata)).flatten) := by
  induction items with
  | nil => rfl
  | cons it rest ih =>
    cases it with
    | obj m =>
      unfold processItems
      rw [buildLine_eq, ih]
      rfl
    | other r =>
      unfold processItems
      rw [ih]
      rfl

theorem process_json_eq (json_data : JsonTop) (metadata : List FieldSpec) :
    process_json json_data metadata =
      .ok ((asItemList json_data).filterMap (itemLine metadata),
           ((asItemList json_data).map (itemLogs metadata)).flatten) :=
  processItems_eq _ _

/-! ## The stable sort by position -/

theorem sortMetadata_perm (metadata : List FieldSpec) :
    (sortMetadata metadata).Perm metadata :=
  List.mergeSort_perm metadata _

theorem sortMetadata_sorted (metadata : List FieldSpec) :
    List.Pairwise (fun a b : FieldSpec => a.position ≤ b.position) (sortMetadata metadata) := by
  have h := @List.sorted_mergeSort FieldSpec
      (fun a b => decide (a.position ≤ b.position))
      (fun a b c hab hbc => by
        simp only [decide_eq_true_eq] at *
        exact le_trans hab hbc)
      (fun a b => by
        simp only [Bool.or_eq_true, decide_eq_true_eq]
        exact le_total a.position b.position)
      metadata
  exact List.Pairwise.imp (fun hab => by simpa using hab) h

/-- Stability: the schema rows sharing any fixed position appear in the
sorted list exactly in their original order. -/
theorem sortMetadata_stable (metadata : List FieldSpec) (p : Int) :
    (sortMetadata metadata).filter (fun fs => decide (fs.position = p)) =
      metadata.filter (fun fs => decide (fs.position = p)) := by
  have hpair : (metadata.filter (fun fs => decide (fs.position = p))).Pairwise
      (fun a b => decide (a.position ≤ b.position) = true) := by
    refine List.pairwise_of_forall_mem_list ?_
    intro a ha b hb
    rw [List.mem_filter] at ha hb
    have hap : a.position = p := by simpa using ha.2
    have hbp : b.position = p := by simpa using hb.2
    simp [hap, hbp]
  have hsub : (metadata.filter (fun fs => decide (fs.position = p))).Sublist
      (sortMetadata metadata) :=
    List.sublist_mergeSort
      (fun a b c hab hbc => by
        simp only [decide_eq_true_eq] at *
        exact le_trans hab hbc)
      (fun a b => by
        simp only [Bool.or_eq_true, decide_eq_true_eq]
        exact le_total a.position b.position)
      hpair (List.filter_sublist metadata)
  have hsub2 : (metadata.filter (fun fs => decide (fs.position = p))).Sublist
      ((sortMetadata metadata).filter (fun fs => decide (fs.position = p))) := by
    have hmono := hsub.filter (fun fs => decide (fs.position = p))
    rwa [List.filter_eq_self.mpr
      (fun a ha => (List.mem_filter.mp ha).2)] at hmono
  have hperm : ((sortMetadata metadata).filter (fun fs => decide (fs.position = p))).Perm
      (metadata.filter (fun fs => decide (fs.position = p))) :=
    (sortMetadata_perm metadata).filter _
  exact (hsub2.eq_of_length hperm.length_eq.symm).symm

/-! ## Line lengths and the row-width computation -/

/-- Each line's length is the sum of the declared field lengths of the
original (unsorted) schema. -/
theorem lineOf_length (item : JsonObj) (metadata : List FieldSpec) :
    (lineOf item metadata).length = (metadata.map FieldSpec.length).sum := by
  unfold lineOf
  rw [List.length_flatten, List.map_map]
  have hmap : ((sortMetadata metadata).map (List.length ∘ fieldOutput item)) =
      (sortMetadata metadata).map FieldSpec.length := by
    apply List.map_congr_left
    intro fs _
    exact fieldOutput_length item fs
  rw [hmap]
  exact ((sortMetadata_perm metadata).map FieldSpec.length).sum_eq

/-- Python `max(xs)` over a non-empty list coincides with
`xs.max?.getD 0`, and bounds every member. -/
theorem pyListMax_eq_getD (l : List Nat) : pyListMax l = l.max?.getD 0 := by
  cases l <;> rfl

theorem le_foldl_max (xs : List Nat) (a : Nat) :
    a ≤ xs.foldl max a ∧ ∀ x ∈ xs, x ≤ xs.foldl max a := by
  induction xs generalizing a with
  | nil => exact ⟨le_refl a, by simp⟩
  | cons y ys ih =>
    refine ⟨le_trans (le_max_left a y) (ih (max a y)).1, ?_⟩
    intro x hx
    rcases List.mem_cons.mp hx with hxy | hxys
    · subst hxy
      exact le_trans (le_max_right a x) (ih (max a x)).1
    · exact (ih (max a y)).2 x hxys

theorem mem_le_pyListMax {l : List Nat} {x : Nat} (hx : x ∈ l) : x ≤ pyListMax l := by
  cases l with
  | nil => cases hx
  | cons y ys =>
    rcases List.mem_cons.mp hx with h | h
    · subst h; exact (le_foldl_max ys x).1
    · exact (le_foldl_max ys y).2 x h

/-- Every data line is at most the uniform row width. -/
theorem line_le_max_row_length {all_iff_lines : List PyStr} {line : PyStr}
    (hmem : line ∈ all_iff_lines) (source_file_name : PyStr) :
    line.length ≤ max_row_length all_iff_lines source_file_name :=
  le_trans (mem_le_pyListMax (List.mem_map_of_mem List.length hmem))
    (le_max_left _ _)

/-- A list of naturals all bounded by `c`, with one member strictly below,
sums to strictly less than `length * c`. -/
theorem sum_lt_length_mul {ns : List Nat} {c a : Nat}
    (hall : ∀ x ∈ ns, x ≤ c) (ha : a ∈ ns) (hlt : a < c) :
    ns.sum < ns.length * c := by
  induction ns with
  | nil => cases ha
  | cons y ys ih =>
    have hy : y ≤ c := hall y (List.mem_cons_self y ys)
    have hsum : ys.sum ≤ ys.length * c := by
      have h := List.sum_le_card_nsmul ys c (fun x hx => hall x (List.mem_cons_of_mem y hx))
      simpa [smul_eq_mul] using h
    rcases List.mem_cons.mp ha with h | h
    · subst h
      simp only [List.sum_cons, List.length_cons]
      calc a + ys.sum < c + ys.length * c := by omega
        _ = (ys.length + 1) * c := by ring
    · have hlt2 := ih (fun x hx => hall x (List.mem_cons_of_mem y hx)) h
      simp only [List.sum_cons, List.length_cons]
      calc y + ys.sum < c + ys.length * c := by omega
        _ = (ys.length + 1) * c := by ring

theorem sum_map_const {α : Type} (l : List α) (R : Nat) :
    (l.map (fun _ => R)).sum = l.length * R := by
  induction l with
  | nil => simp
  | cons x xs ih =>
    simp only [List.map_cons, List.sum_cons, List.length_cons, ih]
    ring

/-- `splitDot` on a float representation `-0.ddd`. -/
theorem splitDot_negzero {decimal_part : PyStr} (hdp : '.' ∉ decimal_part) :
    splitDot ('-' :: '0' :: '.' :: decimal_part) = some (['-', '0'], decimal_part) := by
  unfold splitDot
  rw [if_pos]
  · simp [List.takeWhile, List.dropWhile]
  · simp [List.count_cons, List.count_eq_zero.mpr hdp]

/-! ## The claims -/

/-- C1: for a non-empty value that parses as a number — its floating-point
textual representation `r` splits at a single dot into `integer_part` and
`decimal_part`, and `integer_part` re-parses as the integer `i` — if the
comma-grouped rejoined string fits in the declared length `L`, then
`format_number` returns exactly that string right-padded with spaces to
exactly `L` characters. -/
theorem format_number_fits_spec (v : PyValue) (L : Nat)
    (r integer_part decimal_part : PyStr) (i : Int) (hL : 0 < L)
    (hblank : isBlank v = false)
    (hfloat : pyFloatRepr v = .ok r)
    (hsplit : splitDot r = some (integer_part, decimal_part))
    (hint : pyInt? integer_part = some i)
    (hlen : (commaFmt i ++ '.' :: decimal_part).length ≤ L) :
    format_number v L =
      .ok ((commaFmt i ++ '.' :: decimal_part) ++
        List.replicate (L - (commaFmt i ++ '.' :: decimal_part).length) ' ') ∧
    ((commaFmt i ++ '.' :: decimal_part) ++
      List.replicate (L - (commaFmt i ++ '.' :: decimal_part).length) ' ').length = L := by
  constructor
  · unfold format_number
    rw [hblank]
    simp only [Bool.false_eq_true, if_false, hfloat, hsplit, hint]
    rw [if_neg (by omega)]
    rfl
  · rw [List.length_append, List.length_replicate]
    omega

theorem format_number_fits_spec_witness :
    format_number (.vnum "1234.56".data "1234.56".data) 10 = .ok "1,234.56  ".data ∧
    ("1,234.56  ".data).length = 10 := by
  have h := format_number_fits_spec (.vnum "1234.56".data "1234.56".data) 10
      "1234.56".data "1234".data "56".data 1234
      (by decide) (by rfl) (by rfl) (by rfl) (by rfl) (by decide)
  exact ⟨h.1.trans (by rfl), by decide⟩

/-- C3: formatting any value as a non-`Number` (String) field coerces it to
text, truncates on the right to at most `L` characters, right-pads with
spaces to exactly `L` characters, and never signals an error. -/
theorem format_field_string_spec (v : PyValue) (field_type : String) (L : Nat)
    (hft : field_type ≠ "Number") (hL : 0 < L) :
    format_field v field_type L = .ok (ljust ((pyStr v).take L) L) ∧
    (ljust ((pyStr v).take L) L).length = L := by
  refine ⟨?_, ?_⟩
  · unfold format_field
    rw [if_neg hft]
  · rw [ljust_length, List.length_take]
    omega

theorem format_field_string_spec_witness :
    format_field (.vstr "ABCDEFGH".data none) "String" 3 = .ok "ABC".data ∧
    ("ABC".data).length = 3 := by
  have h := format_field_string_spec (.vstr "ABCDEFGH".data none) "String" 3
      (by decide) (by decide)
  exact ⟨h.1.trans (by rfl), by decide⟩

/-- C9: a numeric value strictly between `-1` and `0` has floating-point
textual representation `-0.ddd`; its integer part `"-0"` is re-parsed as the
integer `0` before comma-grouping, so the minus sign is silently dropped from
the formatted output. -/
theorem format_number_negzero_spec (v : PyValue) (decimal_part : PyStr) (L : Nat)
    (hblank : isBlank v = false)
    (hfloat : pyFloatRepr v = .ok ('-' :: '0' :: '.' :: decimal_part))
    (hdp : '.' ∉ decimal_part)
    (hdm : '-' ∉ decimal_part)
    (hlen : decimal_part.length + 2 ≤ L) :
    format_number v L = .ok (ljust ('0' :: '.' :: decimal_part) L) ∧
    '-' ∉ ljust ('0' :: '.' :: decimal_part) L := by
  constructor
  · unfold format_number
    rw [hblank]
    simp only [Bool.false_eq_true, if_false, hfloat, splitDot_negzero hdp]
    have hint : pyInt? ['-', '0'] = some 0 := by rfl
    simp only [hint]
    rw [if_neg (by simp [commaFmt, group3, commaRev]; omega)]
    rfl
  · intro hmem
    rw [ljust] at hmem
    rcases List.mem_append.mp hmem with hmem | hmem
    · rcases List.mem_cons.mp hmem with h | hmem
      · cases h
      · rcases List.mem_cons.mp hmem with h | hmem
        · cases h
        · exact hdm hmem
    · have := (List.eq_of_mem_replicate hmem)
      cases this

theorem format_number_negzero_spec_witness :
    format_number (.vnum "-0.5".data "-0.5".data) 5 = .ok "0.5  ".data ∧
    '-' ∉ "0.5  ".data := by
  have h := format_number_negzero_spec (.vnum "-0.5".data "-0.5".data) ['5'] 5
      (by decide) (by rfl) (by decide) (by decide) (by decide)
  exact ⟨h.1.trans (by rfl), by decide⟩

/-- C5: an absent key or an empty-string value formats, for every field type
and every positive length, to exactly `L` spaces, with no error signalled and
nothing logged. -/
theorem blank_field_spec (item : JsonObj) (field_name field_type : String)
    (L : Nat) (hL : 0 < L)
    (hblank : item.lookup field_name = none ∨
      ∃ asFloat, item.lookup field_name = some (.vstr [] asFloat)) :
    formatFieldLogged (getValue item field_name) field_type L =
      .ok (List.replicate L ' ', []) := by
  have hv : ∃ asFloat, getValue item field_name = .vstr [] asFloat := by
    rcases hblank with h | ⟨af, h⟩
    · exact ⟨none, by simp [getValue, h]⟩
    · exact ⟨af, by simp [getValue, h]⟩
  obtain ⟨af, hv⟩ := hv
  have hval : format_field (getValue item field_name) field_type L =
      .ok (List.replicate L ' ') := by
    rw [hv]
    unfold format_field
    split
    · unfold format_number
      simp [isBlank]
    · simp [pyStr, ljust_nil]
  unfold formatFieldLogged
  rw [hval]

theorem blank_field_spec_witness :
    formatFieldLogged (getValue [] "id") "Number" 4 = .ok (List.replicate 4 ' ', []) ∧
    formatFieldLogged (getValue [] "id") "String" 4 = .ok (List.replicate 4 ' ', []) :=
  ⟨blank_field_spec [] "id" "Number" 4 (by decide) (Or.inl rfl),
   blank_field_spec [] "id" "String" 4 (by decide) (Or.inl rfl)⟩

/-- C10: a key present with JSON `null` (Python `None`): a `Number` field
formats it as `L` spaces exactly like an absent value, but a `String` field
formats the text `"None"` truncated and right-padded — not blanks — so null
and absent are not equivalent for String fields. -/
theorem null_value_spec (item : JsonObj) (field_name : String) (L : Nat)
    (hL : 0 < L)
    (hnull : item.lookup field_name = some .vnone) :
    formatFieldLogged (getValue item field_name) "Number" L =
      .ok (List.replicate L ' ', []) ∧
    formatFieldLogged (getValue item field_name) "String" L =
      .ok (ljust ("None".data.take L) L, []) ∧
    ljust ("None".data.take L) L ≠ List.replicate L ' ' := by
  have hv : getValue item field_name = .vnone := by simp [getValue, hnull]
  refine ⟨?_, ?_, ?_⟩
  · rw [hv]
    unfold formatFieldLogged format_field
    rw [if_pos rfl]
    unfold format_number
    simp [isBlank]
  · rw [hv]
    unfold formatFieldLogged format_field
    rw [if_neg (by decide)]
    rfl
  · intro heq
    cases L with
    | zero => omega
    | succ n =>
      have hdata : "None".data = 'N' :: "one".data := rfl
      rw [hdata, List.take_succ_cons, List.replicate_succ] at heq
      have hcons : ljust ('N' :: List.take n "one".data) (n + 1) =
          'N' :: (List.take n "one".data ++
            List.replicate ((n + 1) - ('N' :: List.take n "one".data).length) ' ') := rfl
      rw [hcons] at heq
      simp only [List.cons.injEq] at heq
      exact absurd heq.1 (by decide)

theorem null_value_spec_witness :
    formatFieldLogged (getValue [("x", .vnone)] "x") "Number" 6 =
      .ok (List.replicate 6 ' ', []) ∧
    formatFieldLogged (getValue [("x", .vnone)] "x") "String" 6 =
      .ok ("None  ".data, []) ∧
    "None  ".data ≠ List.replicate 6 ' ' := by
  have h := null_value_spec [("x", .vnone)] "x" 6 (by decide) (by rfl)
  exact ⟨h.1, h.2.1.trans (by rfl), by decide⟩

/-- C2: whenever `format_number` signals an error for a `Number` field — the
value cannot be parsed as a number, or its formatted form is longer than the
declared length — the escaping error is the caught `ValueError`, the record
builder substitutes exactly `L` spaces for the field and logs the failure,
and the record is still produced with every field formatted by the ordinary
per-field function (it is never discarded). -/
theorem number_error_recovery_spec (v : PyValue) (L : Nat) (e : PyErr)
    (herr : format_number v L = .error e) :
    e = .valueError ("Value is not a number: ".data ++ pyStr v) ∧
    formatFieldLogged v "Number" L =
      .ok (List.replicate L ' ',
        [.error ("Error formatting field: ".data ++
          ("Value is not a number: ".data ++ pyStr v))]) ∧
    (∀ (item : JsonObj) (fs : FieldSpec), fs.field_type = "Number" →
      fs.length = L → getValue item fs.field_name = v →
      fieldOutput item fs = List.replicate L ' ' ∧
      fieldLogs item fs = [.error ("Error formatting field: ".data ++
        ("Value is not a number: ".data ++ pyStr v))]) ∧
    (∀ (item : JsonObj) (metadata : List FieldSpec), buildLine item metadata =
      .ok (lineOf item metadata,
        ((sortMetadata metadata).map (fieldLogs item)).flatten)) := by
  have hmsg := format_number_error_shape herr
  have hff : format_field v "Number" L = .error e := by
    unfold format_field
    rw [if_pos rfl]
    exact herr
  refine ⟨hmsg, ?_, ?_, fun item metadata => buildLine_eq item metadata⟩
  · unfold formatFieldLogged
    rw [hff, hmsg]
  · intro item fs hft hlen hval
    unfold fieldOutput fieldLogs
    rw [hval, hft, hlen, hff, hmsg]
    exact ⟨rfl, rfl⟩

theorem number_error_recovery_spec_witness :
    formatFieldLogged (.vstr "abc".data none) "Number" 5 =
      .ok (List.replicate 5 ' ',
        [.error "Error formatting field: Value is not a number: abc".data]) := by
  have h := number_error_recovery_spec (.vstr "abc".data none) 5
      (.valueError ("Value is not a number: ".data ++ "abc".data)) (by rfl)
  exact h.2.1.trans (by rfl)

/-- C4: every produced line is the concatenation, in ascending position order
with ties kept in original (stable) order, of one formatted string per schema
row, each contribution exactly the declared length; consequently every line's
length is the sum of all declared field lengths. -/
theorem line_shape_spec (json_data : JsonTop) (metadata : List FieldSpec)
    (lines : List PyStr) (logs : List LogEvent)
    (h : process_json json_data metadata = .ok (lines, logs)) :
    ∀ line ∈ lines, ∃ item : JsonObj,
      JsonItem.obj item ∈ asItemList json_data ∧
      line = ((sortMetadata metadata).map (fieldOutput item)).flatten ∧
      (∀ fs ∈ sortMetadata metadata, (fieldOutput item fs).length = fs.length) ∧
      (sortMetadata metadata).Perm metadata ∧
      List.Pairwise (fun a b : FieldSpec => a.position ≤ b.position) (sortMetadata metadata) ∧
      (∀ p : Int, (sortMetadata metadata).filter (fun fs => decide (fs.position = p)) =
        metadata.filter (fun fs => decide (fs.position = p))) ∧
      line.length = (metadata.map FieldSpec.length).sum := by
  intro line hline
  rw [process_json_eq] at h
  simp only [Except.ok.injEq, Prod.mk.injEq] at h
  rw [← h.1] at hline
  rw [List.mem_filterMap] at hline
  obtain ⟨it, hitmem, hit⟩ := hline
  cases it with
  | other r => simp [itemLine] at hit
  | obj m =>
    simp only [itemLine, Option.some.injEq] at hit
    refine ⟨m, hitmem, ?_, fun fs _ => fieldOutput_length m fs,
      sortMetadata_perm metadata, sortMetadata_sorted metadata,
      sortMetadata_stable metadata, ?_⟩
    · rw [← hit]; rfl
    · rw [← hit]
      exact lineOf_length m metadata

theorem line_shape_spec_witness :
    (∃ item : JsonObj,
      JsonItem.obj item ∈ asItemList (.single (.obj [("id", .vnum "42".data "42.0".data)])) ∧
      "42.0 ".data =
        ((sortMetadata [⟨1, "id", "Number", 5⟩]).map (fieldOutput item)).flatten ∧
      (∀ fs ∈ sortMetadata [⟨1, "id", "Number", 5⟩],
        (fieldOutput item fs).length = fs.length) ∧
      (sortMetadata [⟨1, "id", "Number", 5⟩]).Perm [⟨1, "id", "Number", 5⟩] ∧
      List.Pairwise (fun a b : FieldSpec => a.position ≤ b.position)
        (sortMetadata [⟨1, "id", "Number", 5⟩]) ∧
      (∀ p : Int, (sortMetadata [⟨1, "id", "Number", 5⟩]).filter
          (fun fs => decide (fs.position = p)) =
        [(⟨1, "id", "Number", 5⟩ : FieldSpec)].filter (fun fs => decide (fs.position = p))) ∧
      ("42.0 ".data).length = ([(⟨1, "id", "Number", 5⟩ : FieldSpec)].map FieldSpec.length).sum) := by
  have hsort : sortMetadata [(⟨1, "id", "Number", 5⟩ : FieldSpec)] =
      [⟨1, "id", "Number", 5⟩] := by simp [sortMetadata]
  have hps : process_json (.single (.obj [("id", .vnum "42".data "42.0".data)]))
      [⟨1, "id", "Number", 5⟩] = .ok (["42.0 ".data], []) := by
    rw [process_json_eq]
    simp only [asItemList, List.filterMap_cons, List.filterMap_nil, List.map_cons,
      List.map_nil, itemLine, itemLogs, lineOf, hsort]
    rfl
  have h := line_shape_spec (.single (.obj [("id", .vnum "42".data "42.0".data)]))
      [⟨1, "id", "Number", 5⟩] ["42.0 ".data] [] hps
  exact h "42.0 ".data (by simp)

/-- C6: a non-list top-level value is processed as the one-element list of
itself; the builder yields exactly one line per object element, in input
order, skipping every non-object element with a logged warning, and never
aborts the run. -/
theorem items_spec (json_data : JsonTop) (metadata : List FieldSpec) :
    (∀ j, asItemList (JsonTop.single j) = [j]) ∧
    process_json json_data metadata =
      .ok ((asItemList json_data).filterMap (itemLine metadata),
           ((asItemList json_data).map (itemLogs metadata)).flatten) ∧
    (∀ m, itemLine metadata (.obj m) = some (lineOf m metadata)) ∧
    (∀ r, itemLine metadata (.other r) = none ∧
      itemLogs metadata (.other r) =
        [.warning ("Skipping item because it is not a dictionary: ".data ++ r)]) :=
  ⟨fun _ => rfl, process_json_eq _ _, fun _ => rfl, fun _ => ⟨rfl, rfl⟩⟩

/-- C7: the uniform row width is the maximum of the longest data line's
length (0 when there are none) and the source base name's length plus six;
the header is that width as a six-digit zero-padded decimal followed by the
base name, right-padded with spaces to exactly the width; the primary file is
the header followed by each data line padded to the width. -/
theorem emitter_spec (all_iff_lines : List PyStr) (source_file_name : PyStr)
    (hfit : (Nat.toDigits 10 (max_row_length all_iff_lines source_file_name)).length ≤ 6) :
    max_row_length all_iff_lines source_file_name =
      max ((all_iff_lines.map List.length).max?.getD 0) (source_file_name.length + 6) ∧
    header_line all_iff_lines source_file_name =
      ljust (zfill6 (max_row_length all_iff_lines source_file_name) ++ source_file_name)
        (max_row_length all_iff_lines source_file_name) ∧
    (header_line all_iff_lines source_file_name).length =
      max_row_length all_iff_lines source_file_name ∧
    primaryContent all_iff_lines source_file_name =
      header_line all_iff_lines source_file_name ++
        (all_iff_lines.map
          (fun line => ljust line (max_row_length all_iff_lines source_file_name))).flatten ∧
    (∀ line ∈ all_iff_lines,
      (ljust line (max_row_length all_iff_lines source_file_name)).length =
        max_row_length all_iff_lines source_file_name) := by
  refine ⟨?_, rfl, ?_, rfl, ?_⟩
  · unfold max_row_length max_data_row_length
    rw [pyListMax_eq_getD]
  · unfold header_line
    apply ljust_length_of_le
    rw [List.length_append]
    have hz : (zfill6 (max_row_length all_iff_lines source_file_name)).length = 6 := by
      unfold zfill6
      rw [List.length_append, List.length_replicate]
      omega
    rw [hz]
    have := le_max_right (max_data_row_length all_iff_lines) (source_file_name.length + 6)
    unfold max_row_length
    omega
  · intro line hmem
    exact ljust_length_of_le (line_le_max_row_length hmem source_file_name)

theorem emitter_spec_witness :
    max_row_length ["ab".data] "f.json".data = 12 ∧
    header_line ["ab".data] "f.json".data = "000012f.json".data ∧
    primaryContent ["ab".data] "f.json".data = "000012f.jsonab          ".data := by
  have h := emitter_spec ["ab".data] "f.json".data (by decide)
  exact ⟨by decide, h.2.1.trans (by rfl), by decide⟩

/-- C8: the backup file is the padded header followed by the data lines
concatenated with no per-line padding; whenever some data line is shorter
than the uniform row width, the backup content differs from the primary
content. -/
theorem backup_spec (all_iff_lines : List PyStr) (source_file_name : PyStr) :
    backupContent all_iff_lines source_file_name =
      header_line all_iff_lines source_file_name ++ all_iff_lines.flatten ∧
    (∀ line ∈ all_iff_lines,
      line.length < max_row_length all_iff_lines source_file_name →
      backupContent all_iff_lines source_file_name ≠
        primaryContent all_iff_lines source_file_name) := by
  refine ⟨rfl, ?_⟩
  intro line hmem hshort heq
  have hlen := congrArg List.length heq
  simp only [backupContent, primaryContent, List.length_append, List.length_flatten,
    List.map_map] at hlen
  have hmapR : all_iff_lines.map
      (List.length ∘ fun l => ljust l (max_row_length all_iff_lines source_file_name)) =
      all_iff_lines.map (fun _ => max_row_length all_iff_lines source_file_name) := by
    apply List.map_congr_left
    intro l hl
    exact ljust_length_of_le (line_le_max_row_length hl source_file_name)
  rw [hmapR, sum_map_const] at hlen
  have hstrict : (all_iff_lines.map List.length).sum <
      all_iff_lines.length * max_row_length all_iff_lines source_file_name := by
    have hb := @sum_lt_length_mul (all_iff_lines.map List.length)
      (max_row_length all_iff_lines source_file_name) line.length
      (fun x hx => by
        obtain ⟨l, hl, hlx⟩ := List.mem_map.mp hx
        rw [← hlx]
        exact line_le_max_row_length hl source_file_name)
      (List.mem_map_of_mem List.length hmem) hshort
    rwa [List.length_map] at hb
  omega

theorem backup_spec_witness :
    backupContent ["ab".data] "f.json".data ≠ primaryContent ["ab".data] "f.json".data := by
  have h := backup_spec ["ab".data] "f.json".data
  exact h.2 "ab".data (by simp) (by decide)

end JsonToIff
